import Mathlib

/-!
Shallow embedding of the rusty_chess_clock timing core
(src/clock.rs, src/chess_clock.rs).

Modelling conventions:
* a Rust std::time::Duration is a number of nanoseconds, represented as a
  Nat bounded by DurationMAX (the value of Duration::MAX); saturating_add
  caps at DurationMAX and saturating_sub is truncated Nat subtraction;
* a Rust std::time::Instant is a Nat (nanoseconds since an arbitrary
  epoch); the Sub impl for Instant saturates at zero since Rust 1.60,
  which truncated Nat subtraction models exactly;
* every Rust method that calls Instant::now() takes the current instant
  as an explicit argument named now; the several now() calls inside one
  public method are idealised to return the same instant;
* u64 multiplication in ChessClock::status is taken modulo 2^64
  (release-mode wrapping semantics).
-/

namespace RustyChessClock

/-- Nanoseconds per second. -/
def NANOS : Nat := 1000000000

/-- Value of Rust Duration::MAX in nanoseconds: u64::MAX seconds plus
999999999 nanoseconds. -/
def DurationMAX : Nat := (2 ^ 64 - 1) * NANOS + (NANOS - 1)

/-- Modulus of Rust u64 arithmetic. -/
def U64 : Nat := 2 ^ 64

/-- Duration::saturating_add. -/
def satAdd (a b : Nat) : Nat := min (a + b) DurationMAX

/-- Duration::as_secs, whole seconds of a duration in nanoseconds. -/
def asSecs (d : Nat) : Nat := d / NANOS

/-- Constant TEN_MINUTES from clock.rs. -/
def TEN_MINUTES : Nat := 600 * NANOS

/-- Enum ClockState from clock.rs; Running carries the instant at which
the current run segment began. -/
inductive ClockState where
  | Running (start : Nat)
  | Stopped
  | Finished
deriving DecidableEq, Repr

/-- Predicate mirroring the matches!(state, ClockState::Running(_)) test. -/
def ClockState.isRunning : ClockState → Bool
  | ClockState.Running _ => true
  | _ => false

/-- Enum ClockMode from clock.rs. -/
inductive ClockMode where
  | CountUp
  | CountDown
deriving DecidableEq, Repr

/-- Struct Clock from clock.rs. -/
structure Clock where
  already_elapsed : Nat
  state : ClockState
  mode : ClockMode
deriving DecidableEq, Repr

namespace Clock

/-- Clock::new. -/
def new (mode : ClockMode) (start : Option Nat) : Clock :=
  let elapsed :=
    match mode, start with
    | _, some s => s
    | ClockMode.CountUp, none => 0
    | ClockMode.CountDown, none => TEN_MINUTES
  { already_elapsed := elapsed, state := ClockState.Stopped, mode := mode }

/-- Clock::read: pure projection of the current elapsed (CountUp) or
remaining (CountDown) time at instant now. -/
def read (c : Clock) (now : Nat) : Nat :=
  match c.state, c.mode with
  | ClockState.Running start, ClockMode.CountUp =>
      c.already_elapsed + (now - start)
  | ClockState.Running start, ClockMode.CountDown =>
      c.already_elapsed - (now - start)
  | _, _ => c.already_elapsed

/-- Clock::read_running: time since the current run segment began, zero
when not running. -/
def read_running (c : Clock) (now : Nat) : Nat :=
  match c.state with
  | ClockState.Running start => now - start
  | _ => 0

/-- Clock::read_and_update: returns the read value and the (possibly
normalised) clock; a running CountDown clock reading zero is stopped
with already_elapsed reset to zero. -/
def read_and_update (c : Clock) (now : Nat) : Clock × Nat :=
  let time := c.read now
  if c.state.isRunning = true ∧ c.mode = ClockMode.CountDown ∧ time = 0 then
    ({ c with already_elapsed := 0, state := ClockState.Stopped }, time)
  else
    (c, time)

/-- Clock::start: only a Stopped clock transitions to Running(now). -/
def start (c : Clock) (now : Nat) : Clock :=
  match c.state with
  | ClockState.Stopped => { c with state := ClockState.Running now }
  | _ => c

/-- Clock::stop: only a Running clock banks its read value and stops. -/
def stop (c : Clock) (now : Nat) : Clock :=
  match c.state with
  | ClockState.Running _ =>
      { c with already_elapsed := c.read now, state := ClockState.Stopped }
  | _ => c

/-- Clock::reset. -/
def reset (c : Clock) (start : Option Nat) : Clock :=
  { c with already_elapsed := start.getD 0, state := ClockState.Stopped }

/-- Clock::zero. -/
def zero (c : Clock) : Clock :=
  c.reset (some 0)

/-- Clock::add: saturating_add on already_elapsed, in any state. -/
def add (c : Clock) (time : Nat) : Clock :=
  { c with already_elapsed := satAdd c.already_elapsed time }

/-- Clock::subtract: while running, rebase from the current total
(floored at zero) and restart when still positive; otherwise
saturating-subtract from already_elapsed. -/
def subtract (c : Clock) (time now : Nat) : Clock :=
  match c.state with
  | ClockState.Running _ =>
      let total := c.read now
      let c1 := c.reset (some (total - time))
      if c1.already_elapsed > 0 then c1.start now else c1
  | _ => { c with already_elapsed := c.already_elapsed - time }

/-- Clock::finish: stop if running, then force the terminal Finished
state. -/
def finish (c : Clock) (now : Nat) : Clock :=
  { c.stop now with state := ClockState.Finished }

end Clock

/-- Enum State from chess_clock.rs: the active player. -/
inductive State where
  | Player1
  | Player2
deriving DecidableEq, Repr

/-- State::other. -/
def State.other : State → State
  | State.Player1 => State.Player2
  | State.Player2 => State.Player1

/-- Enum Status from chess_clock.rs. -/
inductive Status where
  | Stopped
  | Running
  | Finished
deriving DecidableEq, Repr

/-- Enum TimingMethod from chess_clock.rs. -/
inductive TimingMethod where
  | Fischer
  | Bronstein
deriving DecidableEq, Repr

/-- Struct Rules from chess_clock.rs. -/
structure Rules where
  player1_time : Nat
  player2_time : Nat
  increment : Nat
  starter : State
  timing_method : TimingMethod
deriving DecidableEq, Repr

/-- Struct ChessClock from chess_clock.rs; the two-element clock array is
a pair indexed through getClock/setClock by State::index(). -/
structure ChessClock where
  clocks : Clock × Clock
  state : State
  rules : Rules
deriving DecidableEq, Repr

namespace ChessClock

/-- Access self.clocks[p.index()]. -/
def getClock (cc : ChessClock) (p : State) : Clock :=
  match p with
  | State.Player1 => cc.clocks.1
  | State.Player2 => cc.clocks.2

/-- Write self.clocks[p.index()]. -/
def setClock (cc : ChessClock) (p : State) (c : Clock) : ChessClock :=
  match p with
  | State.Player1 => { cc with clocks := (c, cc.clocks.2) }
  | State.Player2 => { cc with clocks := (cc.clocks.1, c) }

/-- ChessClock::new: two CountDown clocks seeded from the rules, active
player the starter. -/
def new (rules : Rules) : ChessClock :=
  { clocks :=
      (Clock.new ClockMode.CountDown (some rules.player1_time),
       Clock.new ClockMode.CountDown (some rules.player2_time)),
    state := rules.starter,
    rules := rules }

/-- ChessClock::active_player. -/
def active_player (cc : ChessClock) : State :=
  cc.state

/-- ChessClock::read: the pair of clock readings, ordered (Player1,
Player2). -/
def read (cc : ChessClock) (now : Nat) : Nat × Nat :=
  ((cc.getClock State.Player1).read now,
   (cc.getClock State.Player2).read now)

/-- ChessClock::update: read_and_update on both clocks. -/
def update (cc : ChessClock) (now : Nat) : ChessClock :=
  { cc with clocks :=
      ((cc.clocks.1.read_and_update now).1,
       (cc.clocks.2.read_and_update now).1) }

/-- ChessClock::status: Finished when the u64 product of the two
whole-second readings is zero or both clocks are Finished; Stopped when
both are Stopped; Running otherwise. -/
def status (cc : ChessClock) (now : Nat) : Status :=
  let t := cc.read now
  let s1 := (cc.getClock State.Player1).state
  let s2 := (cc.getClock State.Player2).state
  match (asSecs t.1 * asSecs t.2) % U64, s1, s2 with
  | 0, _, _ => Status.Finished
  | _, ClockState.Finished, ClockState.Finished => Status.Finished
  | _, ClockState.Stopped, ClockState.Stopped => Status.Stopped
  | _, _, _ => Status.Running

/-- ChessClock::start_current. -/
def start_current (cc : ChessClock) (now : Nat) : ChessClock :=
  cc.setClock cc.state ((cc.getClock cc.state).start now)

/-- ChessClock::start. -/
def start (cc : ChessClock) (now : Nat) : ChessClock :=
  cc.start_current now

/-- ChessClock::switch_player: update both clocks, then branch on the
active clock's (normalised) state: Running stops it, applies the
Fischer or Bronstein increment, starts the other clock and flips the
active player; Finished does nothing; Stopped only flips the active
player. -/
def switch_player (cc : ChessClock) (now : Nat) : ChessClock :=
  let cc1 := cc.update now
  let current := cc1.state
  let new := current.other
  let current_status := (cc1.getClock current).state
  match current_status with
  | ClockState.Running _ =>
      let running_time := (cc1.getClock current).read_running now
      let cc2 := cc1.setClock current ((cc1.getClock current).stop now)
      let cc3 :=
        match cc2.rules.timing_method with
        | TimingMethod.Fischer =>
            cc2.setClock current
              ((cc2.getClock current).add cc2.rules.increment)
        | TimingMethod.Bronstein =>
            cc2.setClock current
              ((cc2.getClock current).add
                (min running_time cc2.rules.increment))
      let cc4 := cc3.setClock new ((cc3.getClock new).start now)
      { cc4 with state := new }
  | ClockState.Finished => cc1
  | ClockState.Stopped => { cc1 with state := new }

/-- ChessClock::stop. -/
def stop (cc : ChessClock) (now : Nat) : ChessClock :=
  cc.setClock cc.state ((cc.getClock cc.state).stop now)

/-- ChessClock::finish: force both clocks to Finished. -/
def finish (cc : ChessClock) (now : Nat) : ChessClock :=
  { cc with clocks := (cc.clocks.1.finish now, cc.clocks.2.finish now) }

end ChessClock

/-! Shared helper lemmas about the embedded operations. -/

namespace Clock

theorem finish_state (c : Clock) (now : Nat) :
    (c.finish now).state = ClockState.Finished := rfl

theorem add_state (c : Clock) (t : Nat) : (c.add t).state = c.state := rfl

theorem add_mode (c : Clock) (t : Nat) : (c.add t).mode = c.mode := rfl

theorem start_of_finished (c : Clock) (now : Nat)
    (h : c.state = ClockState.Finished) : c.start now = c := by
  simp [Clock.start, h]

theorem subtract_state_of_finished (c : Clock) (t now : Nat)
    (h : c.state = ClockState.Finished) :
    (c.subtract t now).state = ClockState.Finished := by
  simp [Clock.subtract, h]

theorem read_and_update_of_finished (c : Clock) (now : Nat)
    (h : c.state = ClockState.Finished) :
    (c.read_and_update now).1 = c := by
  simp [Clock.read_and_update, h, ClockState.isRunning]

theorem read_and_update_state_cases (c : Clock) (now : Nat) :
    (c.read_and_update now).1.state = c.state
    ∨ (c.read_and_update now).1.state = ClockState.Stopped := by
  by_cases h : c.state.isRunning = true ∧ c.mode = ClockMode.CountDown
      ∧ c.read now = 0
  · right
    simp [Clock.read_and_update, h]
  · left
    simp [Clock.read_and_update, h]

end Clock

namespace ChessClock

theorem getClock_setClock_self (cc : ChessClock) (p : State) (c : Clock) :
    (cc.setClock p c).getClock p = c := by
  cases p <;> rfl

theorem getClock_setClock_other (cc : ChessClock) (p q : State) (c : Clock)
    (h : q ≠ p) : (cc.setClock p c).getClock q = cc.getClock q := by
  cases p <;> cases q <;> simp_all <;> rfl

theorem setClock_state (cc : ChessClock) (p : State) (c : Clock) :
    (cc.setClock p c).state = cc.state := by
  cases p <;> rfl

theorem setClock_rules (cc : ChessClock) (p : State) (c : Clock) :
    (cc.setClock p c).rules = cc.rules := by
  cases p <;> rfl

theorem update_state (cc : ChessClock) (now : Nat) :
    (cc.update now).state = cc.state := rfl

theorem update_rules (cc : ChessClock) (now : Nat) :
    (cc.update now).rules = cc.rules := rfl

theorem update_getClock (cc : ChessClock) (now : Nat) (p : State) :
    (cc.update now).getClock p = ((cc.getClock p).read_and_update now).1 := by
  cases p <;> rfl

end ChessClock

/-- Both underlying clocks of a ChessClock are in the Finished state. -/
def bothFinished (cc : ChessClock) : Prop :=
  cc.clocks.1.state = ClockState.Finished
  ∧ cc.clocks.2.state = ClockState.Finished

/-- Sequences of the operations named by the finish-is-terminal claim:
ChessClock::start, ChessClock::switch_player, and Clock::add /
Clock::subtract applied to either underlying clock. -/
inductive FinSeq : ChessClock → ChessClock → Prop where
  | refl (cc : ChessClock) : FinSeq cc cc
  | start (cc cc' : ChessClock) (now : Nat) :
      FinSeq cc cc' → FinSeq cc (cc'.start now)
  | switch (cc cc' : ChessClock) (now : Nat) :
      FinSeq cc cc' → FinSeq cc (cc'.switch_player now)
  | addClock (cc cc' : ChessClock) (p : State) (d : Nat) :
      FinSeq cc cc' → FinSeq cc (cc'.setClock p ((cc'.getClock p).add d))
  | subClock (cc cc' : ChessClock) (p : State) (d now : Nat) :
      FinSeq cc cc' →
      FinSeq cc (cc'.setClock p ((cc'.getClock p).subtract d now))

theorem bothFinished_getClock {cc : ChessClock} (h : bothFinished cc)
    (p : State) : (cc.getClock p).state = ClockState.Finished := by
  cases p
  · exact h.1
  · exact h.2

theorem bothFinished_setClock {cc : ChessClock} {c : Clock}
    (h : bothFinished cc) (p : State)
    (hc : c.state = ClockState.Finished) :
    bothFinished (cc.setClock p c) := by
  obtain ⟨h1, h2⟩ := h
  cases p
  · exact ⟨hc, h2⟩
  · exact ⟨h1, hc⟩

theorem bothFinished_update {cc : ChessClock} (now : Nat)
    (h : bothFinished cc) : bothFinished (cc.update now) := by
  constructor
  · show ((cc.clocks.1.read_and_update now).1).state = ClockState.Finished
    rw [Clock.read_and_update_of_finished cc.clocks.1 now h.1]
    exact h.1
  · show ((cc.clocks.2.read_and_update now).1).state = ClockState.Finished
    rw [Clock.read_and_update_of_finished cc.clocks.2 now h.2]
    exact h.2

theorem bothFinished_start {cc : ChessClock} (now : Nat)
    (h : bothFinished cc) : bothFinished (cc.start now) := by
  obtain ⟨h1, h2⟩ := h
  show bothFinished (cc.setClock cc.state ((cc.getClock cc.state).start now))
  cases hp : cc.state
  · rw [Clock.start_of_finished (cc.getClock State.Player1) now h1]
    exact ⟨h1, h2⟩
  · rw [Clock.start_of_finished (cc.getClock State.Player2) now h2]
    exact ⟨h1, h2⟩

theorem bothFinished_switch {cc : ChessClock} (now : Nat)
    (h : bothFinished cc) : bothFinished (cc.switch_player now) := by
  have hu := bothFinished_update now h
  have hsc : ((cc.update now).getClock (cc.update now).state).state
      = ClockState.Finished := bothFinished_getClock hu _
  simp only [ChessClock.switch_player]
  rw [hsc]
  exact hu

theorem finSeq_bothFinished {cc cc' : ChessClock}
    (h : bothFinished cc) (hseq : FinSeq cc cc') : bothFinished cc' := by
  induction hseq with
  | refl => exact h
  | start b now hprev ih => exact bothFinished_start now ih
  | switch b now hprev ih => exact bothFinished_switch now ih
  | addClock b p d hprev ih =>
      exact bothFinished_setClock ih p
        (by rw [Clock.add_state]; exact bothFinished_getClock ih p)
  | subClock b p d now hprev ih =>
      exact bothFinished_setClock ih p
        (Clock.subtract_state_of_finished _ d now
          (bothFinished_getClock ih p))

theorem status_of_bothFinished {cc : ChessClock} (h : bothFinished cc)
    (now : Nat) : cc.status now = Status.Finished := by
  have h1 : (cc.getClock State.Player1).state = ClockState.Finished := h.1
  have h2 : (cc.getClock State.Player2).state = ClockState.Finished := h.2
  simp only [ChessClock.status]
  rw [h1, h2]
  cases hp : (asSecs (cc.read now).1 * asSecs (cc.read now).2) % U64 <;> rfl

theorem bothFinished_finish (cc : ChessClock) (now : Nat) :
    bothFinished (cc.finish now) := ⟨rfl, rfl⟩

/-- Every clock that some Running state points at is the active player's
clock: the key invariant behind the at-most-one-running property. -/
def runningImpliesActive (cc : ChessClock) : Prop :=
  ∀ p : State, (cc.getClock p).state.isRunning = true → p = cc.state

/-- ChessClock states reachable from ChessClock::new by any sequence of
start() and switch_player() calls. -/
inductive Reachable : ChessClock → Prop where
  | base (rules : Rules) : Reachable (ChessClock.new rules)
  | start (cc : ChessClock) (now : Nat) :
      Reachable cc → Reachable (cc.start now)
  | switch (cc : ChessClock) (now : Nat) :
      Reachable cc → Reachable (cc.switch_player now)

theorem State.other_ne (p : State) : p.other ≠ p := by
  cases p <;> decide

theorem State.eq_or_eq_other (p q : State) : p = q ∨ p = q.other := by
  cases p <;> cases q <;> simp [State.other]

theorem ria_new (rules : Rules) :
    runningImpliesActive (ChessClock.new rules) := by
  intro p hp
  cases p <;>
    simp [ChessClock.new, ChessClock.getClock, Clock.new,
      ClockState.isRunning] at hp

theorem start_state (cc : ChessClock) (now : Nat) :
    (cc.start now).state = cc.state :=
  ChessClock.setClock_state cc cc.state _

theorem getClock_start (cc : ChessClock) (now : Nat) (p : State)
    (h : p ≠ cc.state) : (cc.start now).getClock p = cc.getClock p :=
  ChessClock.getClock_setClock_other cc cc.state p _ h

theorem ria_start {cc : ChessClock} (now : Nat)
    (h : runningImpliesActive cc) :
    runningImpliesActive (cc.start now) := by
  intro p hp
  rw [start_state]
  by_cases hpe : p = cc.state
  · exact hpe
  · rw [getClock_start cc now p hpe] at hp
    exact h p hp

theorem ria_update {cc : ChessClock} (now : Nat)
    (h : runningImpliesActive cc) :
    runningImpliesActive (cc.update now) := by
  intro p hp
  rw [ChessClock.update_getClock] at hp
  rcases Clock.read_and_update_state_cases (cc.getClock p) now with hc | hc
  · rw [hc] at hp
    rw [ChessClock.update_state]
    exact h p hp
  · rw [hc] at hp
    simp [ClockState.isRunning] at hp

theorem getClock_state_update (cc : ChessClock) (p : State) :
    ({ cc with state := p } : ChessClock).getClock = cc.getClock := by
  funext q
  cases q <;> rfl

theorem ria_switch {cc : ChessClock} (now : Nat)
    (h : runningImpliesActive cc) :
    runningImpliesActive (cc.switch_player now) := by
  have hu : runningImpliesActive (cc.update now) := ria_update now h
  simp only [ChessClock.switch_player]
  cases hst : ((cc.update now).getClock (cc.update now).state).state with
  | Finished => exact hu
  | Stopped =>
      intro p hp
      rw [show ({ cc.update now with
            state := (cc.update now).state.other } : ChessClock).getClock
          = (cc.update now).getClock from getClock_state_update _ _] at hp
      have hpe := hu p hp
      rw [hpe] at hp
      rw [hst] at hp
      simp [ClockState.isRunning] at hp
  | Running s0 =>
      intro p hp
      set cc1 := cc.update now with hcc1
      set cur := cc1.state with hcur
      set nw := cur.other with hnw
      set cc2 := cc1.setClock cur ((cc1.getClock cur).stop now) with hcc2
      set cc3 := (match cc2.rules.timing_method with
        | TimingMethod.Fischer =>
            cc2.setClock cur ((cc2.getClock cur).add cc2.rules.increment)
        | TimingMethod.Bronstein =>
            cc2.setClock cur ((cc2.getClock cur).add
              (min ((cc1.getClock cur).read_running now)
                cc2.rules.increment))) with hcc3
      set cc4 := cc3.setClock nw ((cc3.getClock nw).start now) with hcc4
      show p = nw
      rcases State.eq_or_eq_other p cur with hp1 | hp1
      · exfalso
        rw [show ({ cc4 with state := nw } : ChessClock).getClock
            = cc4.getClock from getClock_state_update _ _] at hp
        rw [hp1] at hp
        have hcn : cur ≠ nw := (State.other_ne cur).symm
        rw [ChessClock.getClock_setClock_other cc3 nw cur _ hcn] at hp
        have hg3 : cc3.getClock cur = (cc2.getClock cur).add
            (match cc2.rules.timing_method with
              | TimingMethod.Fischer => cc2.rules.increment
              | TimingMethod.Bronstein =>
                  min ((cc1.getClock cur).read_running now)
                    cc2.rules.increment) := by
          rw [hcc3]
          cases cc2.rules.timing_method <;>
            simp [ChessClock.getClock_setClock_self]
        rw [hg3] at hp
        rw [Clock.add_state] at hp
        rw [hcc2, ChessClock.getClock_setClock_self] at hp
        rw [show ((cc1.getClock cur).stop now).state = ClockState.Stopped
          from by simp [Clock.stop, hst]] at hp
        simp [ClockState.isRunning] at hp
      · exact hp1

theorem reachable_ria {cc : ChessClock} (h : Reachable cc) :
    runningImpliesActive cc := by
  induction h with
  | base rules => exact ria_new rules
  | start b now hprev ih => exact ria_start now ih
  | switch b now hprev ih => exact ria_switch now ih

/-- Witness rules: ten seconds a side, two seconds of increment, Player1
starts, Fischer timing. -/
def wRules : Rules :=
  { player1_time := 10 * NANOS, player2_time := 10 * NANOS,
    increment := 2 * NANOS, starter := State.Player1,
    timing_method := TimingMethod.Fischer }

/-- Witness chess clock freshly built from wRules. -/
def wChess : ChessClock := ChessClock.new wRules

/-- Witness end state for the finish-is-terminal claim: finish, then a
start, a switch_player and a Clock::add on player 1. -/
def wChessFin : ChessClock :=
  (((wChess.finish 0).start 1).switch_player 2).setClock State.Player1
    (((((wChess.finish 0).start 1).switch_player 2).getClock
      State.Player1).add 4)

/-- Claim C6: measured against the normalised state that switch_player()
itself establishes by first calling update(), a Stopped active clock
makes switch_player() flip the active player and nothing else (no
increment, no state or banked-time change on either clock, no clock
started), and a Finished active clock makes switch_player() change
nothing at all, the active player included. -/
theorem claim6_switch_stopped_finished (cc : ChessClock) (now : Nat) :
    (((cc.update now).getClock cc.state).state = ClockState.Stopped →
      cc.switch_player now
        = { cc.update now with state := cc.state.other })
    ∧ (((cc.update now).getClock cc.state).state = ClockState.Finished →
      cc.switch_player now = cc.update now) := by
  constructor
  · intro h
    simp only [ChessClock.switch_player]
    rw [ChessClock.update_state, h]
  · intro h
    simp only [ChessClock.switch_player]
    rw [ChessClock.update_state, h]

/-- Witness for C6: a fresh clock (both Stopped) only flips the player;
a finished clock is left exactly as update() leaves it. -/
theorem claim6_witness :
    (((wChess.update 5).getClock wChess.state).state = ClockState.Stopped
      ∧ wChess.switch_player 5
          = { wChess.update 5 with state := wChess.state.other })
    ∧ ((((wChess.finish 0).update 3).getClock
          (wChess.finish 0).state).state = ClockState.Finished
      ∧ (wChess.finish 0).switch_player 3 = (wChess.finish 0).update 3) :=
  ⟨⟨by decide, (claim6_switch_stopped_finished wChess 5).1 (by decide)⟩,
   ⟨by decide,
    (claim6_switch_stopped_finished (wChess.finish 0) 3).2 (by decide)⟩⟩

/-- Claim C2: when the active player's clock is Running after the
update() normalisation step, switch_player() stops it (banking its
current reading), adds to it the full increment under Fischer and
min(running_time, increment) under Bronstein — running_time being the
time since the clock's current run segment began, the read_running()
value — then starts the other player's clock and makes the other player
active. The saturation bound keeps the Duration addition exact. -/
theorem claim2_switch_running (cc : ChessClock) (now s : Nat)
    (hrun : ((cc.update now).getClock cc.state).state
      = ClockState.Running s)
    (hsat : ((cc.update now).getClock cc.state).read now
      + cc.rules.increment ≤ DurationMAX) :
    (cc.switch_player now).state = cc.state.other
    ∧ (cc.switch_player now).getClock cc.state.other
        = ((cc.update now).getClock cc.state.other).start now
    ∧ ((cc.switch_player now).getClock cc.state).state = ClockState.Stopped
    ∧ (cc.rules.timing_method = TimingMethod.Fischer →
        ((cc.switch_player now).getClock cc.state).already_elapsed
          = ((cc.update now).getClock cc.state).read now
            + cc.rules.increment)
    ∧ (cc.rules.timing_method = TimingMethod.Bronstein →
        ((cc.switch_player now).getClock cc.state).already_elapsed
          = ((cc.update now).getClock cc.state).read now
            + min (((cc.update now).getClock cc.state).read_running now)
              cc.rules.increment) := by
  have hco : cc.state.other ≠ cc.state := State.other_ne cc.state
  have hoc : cc.state ≠ cc.state.other := hco.symm
  have hstop : ((cc.update now).getClock cc.state).stop now
      = { (cc.update now).getClock cc.state with
          already_elapsed := ((cc.update now).getClock cc.state).read now,
          state := ClockState.Stopped } := by
    simp [Clock.stop, hrun]
  simp only [ChessClock.switch_player]
  rw [ChessClock.update_state, hrun]
  rw [ChessClock.setClock_rules, ChessClock.update_rules]
  cases htm : cc.rules.timing_method
  case Fischer =>
      refine ⟨rfl, ?_, ?_, ?_, ?_⟩
      · rw [getClock_state_update, ChessClock.getClock_setClock_self,
          ChessClock.getClock_setClock_other _ _ _ _ hco,
          ChessClock.getClock_setClock_other _ _ _ _ hco]
      · rw [getClock_state_update,
          ChessClock.getClock_setClock_other _ _ _ _ hoc,
          ChessClock.getClock_setClock_self, Clock.add_state,
          ChessClock.getClock_setClock_self, hstop]
      · intro _
        rw [getClock_state_update,
          ChessClock.getClock_setClock_other _ _ _ _ hoc,
          ChessClock.getClock_setClock_self,
          ChessClock.getClock_setClock_self, hstop]
        show satAdd (((cc.update now).getClock cc.state).read now)
            cc.rules.increment
          = ((cc.update now).getClock cc.state).read now
            + cc.rules.increment
        exact min_eq_left hsat
      · intro habs
        exact absurd habs (by decide)
  case Bronstein =>
      refine ⟨rfl, ?_, ?_, ?_, ?_⟩
      · rw [getClock_state_update, ChessClock.getClock_setClock_self,
          ChessClock.getClock_setClock_other _ _ _ _ hco,
          ChessClock.getClock_setClock_other _ _ _ _ hco]
      · rw [getClock_state_update,
          ChessClock.getClock_setClock_other _ _ _ _ hoc,
          ChessClock.getClock_setClock_self, Clock.add_state,
          ChessClock.getClock_setClock_self, hstop]
      · intro habs
        exact absurd habs (by decide)
      · intro _
        rw [getClock_state_update,
          ChessClock.getClock_setClock_other _ _ _ _ hoc,
          ChessClock.getClock_setClock_self,
          ChessClock.getClock_setClock_self, hstop]
        show satAdd (((cc.update now).getClock cc.state).read now)
            (min (((cc.update now).getClock cc.state).read_running now)
              cc.rules.increment)
          = ((cc.update now).getClock cc.state).read now
            + min (((cc.update now).getClock cc.state).read_running now)
              cc.rules.increment
        refine min_eq_left ?_
        calc ((cc.update now).getClock cc.state).read now
            + min (((cc.update now).getClock cc.state).read_running now)
              cc.rules.increment
            ≤ ((cc.update now).getClock cc.state).read now
              + cc.rules.increment :=
              Nat.add_le_add_left (Nat.min_le_right _ _) _
          _ ≤ DurationMAX := hsat

/-- Witness chess clock: wChess with its active (player 1) clock started
at instant 0. -/
def wStarted : ChessClock := wChess.start 0

/-- Witness for C2: starting wChess and switching three seconds later;
under its Fischer rules the outgoing clock banks its 7s remaining plus
the 2s increment, and player 2 becomes active with a running clock. -/
theorem claim2_witness :
    ((wStarted.update (3 * NANOS)).getClock wStarted.state).state
        = ClockState.Running 0
    ∧ ((wStarted.update (3 * NANOS)).getClock wStarted.state).read (3 * NANOS)
        + wStarted.rules.increment ≤ DurationMAX
    ∧ ((wStarted.switch_player (3 * NANOS)).state = wStarted.state.other
      ∧ (wStarted.switch_player (3 * NANOS)).getClock wStarted.state.other
          = ((wStarted.update (3 * NANOS)).getClock
              wStarted.state.other).start (3 * NANOS)
      ∧ ((wStarted.switch_player (3 * NANOS)).getClock wStarted.state).state
          = ClockState.Stopped
      ∧ (wStarted.rules.timing_method = TimingMethod.Fischer →
          ((wStarted.switch_player (3 * NANOS)).getClock
              wStarted.state).already_elapsed
            = ((wStarted.update (3 * NANOS)).getClock wStarted.state).read
                (3 * NANOS) + wStarted.rules.increment)
      ∧ (wStarted.rules.timing_method = TimingMethod.Bronstein →
          ((wStarted.switch_player (3 * NANOS)).getClock
              wStarted.state).already_elapsed
            = ((wStarted.update (3 * NANOS)).getClock wStarted.state).read
                (3 * NANOS)
              + min (((wStarted.update (3 * NANOS)).getClock
                  wStarted.state).read_running (3 * NANOS))
                wStarted.rules.increment)) :=
  ⟨by decide, by decide,
   claim2_switch_running wStarted (3 * NANOS) 0 (by decide) (by decide)⟩

/-! Concrete clocks used by the witness theorems. -/

/-- Witness clock: a CountUp clock running since instant 2 with 3ns
banked. -/
def wClockRunning : Clock :=
  { already_elapsed := 3, state := ClockState.Running 2,
    mode := ClockMode.CountUp }

/-- Witness clock: a stopped CountDown clock with 3ns banked. -/
def wClockStopped : Clock :=
  { already_elapsed := 3, state := ClockState.Stopped,
    mode := ClockMode.CountDown }

/-- Witness clock: a finished CountDown clock with 7ns banked. -/
def wClockFinished : Clock :=
  { already_elapsed := 7, state := ClockState.Finished,
    mode := ClockMode.CountDown }

/-- Witness clock: a CountDown clock running since instant 0 with 5ns
banked, so its reading is exhausted at every instant from 5 on. -/
def wClockZeroed : Clock :=
  { already_elapsed := 5, state := ClockState.Running 0,
    mode := ClockMode.CountDown }

theorem asSecs_eq_zero_iff (d : Nat) : asSecs d = 0 ↔ d < NANOS := by
  unfold asSecs
  exact Nat.div_eq_zero_iff (by norm_num [NANOS])

/-- Witness chess clock for the status counterexample: player 1 has half
a second remaining, player 2 ten seconds, both clocks Stopped. -/
def wSubSecond : ChessClock :=
  ChessClock.new
    { player1_time := NANOS / 2, player2_time := 10 * NANOS,
      increment := 0, starter := State.Player1,
      timing_method := TimingMethod.Fischer }

/-- Counterexample to C1 as stated: a ChessClock whose player-1 clock
holds half a second reports status() Finished although neither read()
value is zero and neither clock state is Finished (both are Stopped),
because status() tests whole seconds via as_secs, not exact zeroness. -/
theorem claim1_counterexample :
    wSubSecond.status 0 = Status.Finished
    ∧ (wSubSecond.read 0).1 ≠ 0
    ∧ (wSubSecond.read 0).2 ≠ 0
    ∧ (wSubSecond.getClock State.Player1).state = ClockState.Stopped
    ∧ (wSubSecond.getClock State.Player2).state = ClockState.Stopped := by
  refine ⟨by decide, by decide, by decide, by decide, by decide⟩

/-- Claim C1 (amended): provided the u64 product of the two whole-second
readings does not overflow, status() is Finished iff either player's
remaining time is below one second (whole-second reading zero) or both
clock states are Finished; otherwise Stopped iff both states are
Stopped, and Running in every remaining case. -/
theorem claim1_status_characterization (cc : ChessClock) (now : Nat)
    (hov : asSecs (cc.read now).1 * asSecs (cc.read now).2 < U64) :
    (cc.status now = Status.Finished ↔
      ((cc.read now).1 < NANOS ∨ (cc.read now).2 < NANOS
        ∨ ((cc.getClock State.Player1).state = ClockState.Finished
          ∧ (cc.getClock State.Player2).state = ClockState.Finished)))
    ∧ (cc.status now = Status.Stopped ↔
      (NANOS ≤ (cc.read now).1 ∧ NANOS ≤ (cc.read now).2
        ∧ (cc.getClock State.Player1).state = ClockState.Stopped
        ∧ (cc.getClock State.Player2).state = ClockState.Stopped))
    ∧ (cc.status now = Status.Running ↔
      (NANOS ≤ (cc.read now).1 ∧ NANOS ≤ (cc.read now).2
        ∧ ¬((cc.getClock State.Player1).state = ClockState.Finished
            ∧ (cc.getClock State.Player2).state = ClockState.Finished)
        ∧ ¬((cc.getClock State.Player1).state = ClockState.Stopped
            ∧ (cc.getClock State.Player2).state = ClockState.Stopped))) := by
  have hmod : (asSecs (cc.read now).1 * asSecs (cc.read now).2) % U64
      = asSecs (cc.read now).1 * asSecs (cc.read now).2 :=
    Nat.mod_eq_of_lt hov
  simp only [ChessClock.status]
  rw [hmod]
  cases hp : asSecs (cc.read now).1 * asSecs (cc.read now).2 with
  | zero =>
      have hlt : (cc.read now).1 < NANOS ∨ (cc.read now).2 < NANOS := by
        rcases Nat.mul_eq_zero.mp hp with h0 | h0
        · exact Or.inl ((asSecs_eq_zero_iff _).mp h0)
        · exact Or.inr ((asSecs_eq_zero_iff _).mp h0)
      cases hs1 : (cc.getClock State.Player1).state <;>
        cases hs2 : (cc.getClock State.Player2).state <;>
          rcases hlt with h0 | h0 <;> simp_all
  | succ n =>
      have hne : asSecs (cc.read now).1 ≠ 0 ∧ asSecs (cc.read now).2 ≠ 0 := by
        rw [← Nat.mul_ne_zero_iff, hp]
        exact Nat.succ_ne_zero n
      have ha : ¬((cc.read now).1 < NANOS) := by
        rw [← asSecs_eq_zero_iff]
        exact hne.1
      have hb : ¬((cc.read now).2 < NANOS) := by
        rw [← asSecs_eq_zero_iff]
        exact hne.2
      cases hs1 : (cc.getClock State.Player1).state <;>
        cases hs2 : (cc.getClock State.Player2).state <;>
          simp_all
  /- end of claim1_status_characterization -/

/-- Witness for C1 (amended) at a fresh ten-second clock: not finished,
both stopped. -/
theorem claim1_witness :
    asSecs ((ChessClock.new
        { player1_time := 10 * NANOS, player2_time := 10 * NANOS,
          increment := 0, starter := State.Player1,
          timing_method := TimingMethod.Bronstein }).read 0).1
      * asSecs ((ChessClock.new
        { player1_time := 10 * NANOS, player2_time := 10 * NANOS,
          increment := 0, starter := State.Player1,
          timing_method := TimingMethod.Bronstein }).read 0).2 < U64
    ∧ ((ChessClock.new
        { player1_time := 10 * NANOS, player2_time := 10 * NANOS,
          increment := 0, starter := State.Player1,
          timing_method := TimingMethod.Bronstein }).status 0 = Status.Stopped
      ↔ (NANOS ≤ ((ChessClock.new
            { player1_time := 10 * NANOS, player2_time := 10 * NANOS,
              increment := 0, starter := State.Player1,
              timing_method := TimingMethod.Bronstein }).read 0).1
        ∧ NANOS ≤ ((ChessClock.new
            { player1_time := 10 * NANOS, player2_time := 10 * NANOS,
              increment := 0, starter := State.Player1,
              timing_method := TimingMethod.Bronstein }).read 0).2
        ∧ ((ChessClock.new
            { player1_time := 10 * NANOS, player2_time := 10 * NANOS,
              increment := 0, starter := State.Player1,
              timing_method := TimingMethod.Bronstein }).getClock
              State.Player1).state = ClockState.Stopped
        ∧ ((ChessClock.new
            { player1_time := 10 * NANOS, player2_time := 10 * NANOS,
              increment := 0, starter := State.Player1,
              timing_method := TimingMethod.Bronstein }).getClock
              State.Player2).state = ClockState.Stopped)) :=
  ⟨by decide,
   (claim1_status_characterization
     (ChessClock.new
       { player1_time := 10 * NANOS, player2_time := 10 * NANOS,
         increment := 0, starter := State.Player1,
         timing_method := TimingMethod.Bronstein }) 0 (by decide)).2.1⟩

/-- Claim C3: in every ChessClock reachable from ChessClock::new by
start() and switch_player() calls, at most one of the two underlying
clocks is Running. No reachable state has a Finished clock, so the
claim's absent-Finished proviso is vacuous here. -/
theorem claim3_at_most_one_running (cc : ChessClock) (h : Reachable cc) :
    ¬((cc.getClock State.Player1).state.isRunning = true
      ∧ (cc.getClock State.Player2).state.isRunning = true) := by
  rintro ⟨h1, h2⟩
  have hr := reachable_ria h
  have e1 := hr State.Player1 h1
  have e2 := hr State.Player2 h2
  exact absurd (e1.trans e2.symm) (by decide)

/-- Witness for C3: a started-then-switched clock built from wRules is
reachable and has at most one running clock. -/
theorem claim3_witness :
    Reachable ((wChess.start 0).switch_player NANOS)
    ∧ ¬((((wChess.start 0).switch_player NANOS).getClock
          State.Player1).state.isRunning = true
      ∧ (((wChess.start 0).switch_player NANOS).getClock
          State.Player2).state.isRunning = true) :=
  have hre : Reachable ((wChess.start 0).switch_player NANOS) :=
    Reachable.switch _ NANOS (Reachable.start _ 0 (Reachable.base wRules))
  ⟨hre, claim3_at_most_one_running _ hre⟩

/-- Claim C5: Clock::finish forces the Finished state, and after
ChessClock::finish every sequence of start(), switch_player(), and
Clock-level add()/subtract() calls on the underlying clocks leaves
status() equal to Finished. -/
theorem claim5_finish_terminal :
    (∀ (c : Clock) (now : Nat), (c.finish now).state = ClockState.Finished)
    ∧ (∀ (cc : ChessClock) (now : Nat) (cc2 : ChessClock),
        FinSeq (cc.finish now) cc2 → ∀ t, cc2.status t = Status.Finished) := by
  constructor
  · intro c now
    exact Clock.finish_state c now
  · intro cc now cc2 hseq t
    exact status_of_bothFinished
      (finSeq_bothFinished (bothFinished_finish cc now) hseq) t

/-- Witness for C5: finish wChess, then start, switch_player and an add
on player 1; the status is still Finished. -/
theorem claim5_witness :
    FinSeq (wChess.finish 0) wChessFin
    ∧ wChessFin.status 7 = Status.Finished :=
  have hchain : FinSeq (wChess.finish 0) wChessFin :=
    FinSeq.addClock _ _ State.Player1 4
      (FinSeq.switch _ _ 2 (FinSeq.start _ _ 1 (FinSeq.refl _)))
  ⟨hchain, claim5_finish_terminal.2 wChess 0 wChessFin hchain 7⟩

/-- Claim C7: start() on a Running clock and stop() on a Stopped clock
are no-ops, leaving the state and already_elapsed (indeed the whole
clock) unchanged. -/
theorem claim7_start_stop_idempotent (c : Clock) (now s : Nat) :
    (c.state = ClockState.Running s → c.start now = c)
    ∧ (c.state = ClockState.Stopped → c.stop now = c) := by
  constructor
  · intro h
    simp [Clock.start, h]
  · intro h
    simp [Clock.stop, h]

/-- Witness for C7 at concrete clocks. -/
theorem claim7_witness :
    (wClockRunning.state = ClockState.Running 2
      ∧ wClockRunning.start 9 = wClockRunning)
    ∧ (wClockStopped.state = ClockState.Stopped
      ∧ wClockStopped.stop 9 = wClockStopped) :=
  ⟨⟨by decide, (claim7_start_stop_idempotent wClockRunning 9 2).1 (by decide)⟩,
   ⟨by decide, (claim7_start_stop_idempotent wClockStopped 9 2).2 (by decide)⟩⟩

/-- Claim C9: from the Finished state, reset(d) stops the clock with
already_elapsed d (zero when absent), zero() stops it at zero, and a
subsequent start() re-enters Running: Finished is not terminal with
respect to reset. -/
theorem claim9_reset_from_finished (c : Clock) (d : Option Nat) (now : Nat)
    (h : c.state = ClockState.Finished) :
    (c.reset d).already_elapsed = d.getD 0
    ∧ (c.reset d).state = ClockState.Stopped
    ∧ c.zero.already_elapsed = 0
    ∧ c.zero.state = ClockState.Stopped
    ∧ ((c.reset d).start now).state = ClockState.Running now := by
  refine ⟨rfl, rfl, rfl, rfl, ?_⟩
  simp [Clock.reset, Clock.start]

/-- Witness for C9 at a concrete finished clock. -/
theorem claim9_witness :
    wClockFinished.state = ClockState.Finished
    ∧ ((wClockFinished.reset (some 11)).already_elapsed = 11
      ∧ (wClockFinished.reset (some 11)).state = ClockState.Stopped
      ∧ wClockFinished.zero.already_elapsed = 0
      ∧ wClockFinished.zero.state = ClockState.Stopped
      ∧ ((wClockFinished.reset (some 11)).start 4).state
          = ClockState.Running 4) :=
  ⟨by decide, claim9_reset_from_finished wClockFinished (some 11) 4 (by decide)⟩

/-- Claim C10: on a Finished clock, add(d) saturating-adds d to
already_elapsed while the state stays Finished and the mode is
unchanged; absent saturation a subsequent read() is larger by exactly
d. -/
theorem claim10_add_finished (c : Clock) (d now : Nat)
    (h : c.state = ClockState.Finished) :
    (c.add d).already_elapsed = satAdd c.already_elapsed d
    ∧ (c.add d).state = ClockState.Finished
    ∧ (c.add d).mode = c.mode
    ∧ (c.already_elapsed + d ≤ DurationMAX →
        (c.add d).read now = c.read now + d) := by
  refine ⟨rfl, by simp [Clock.add, h], rfl, ?_⟩
  intro hb
  have hs : satAdd c.already_elapsed d = c.already_elapsed + d :=
    min_eq_left hb
  simp [Clock.read, Clock.add, h, hs]

/-- Witness for C10 at a concrete finished clock. -/
theorem claim10_witness :
    wClockFinished.state = ClockState.Finished
    ∧ ((wClockFinished.add 6).already_elapsed
        = satAdd wClockFinished.already_elapsed 6
      ∧ (wClockFinished.add 6).state = ClockState.Finished
      ∧ (wClockFinished.add 6).mode = wClockFinished.mode
      ∧ (wClockFinished.already_elapsed + 6 ≤ DurationMAX →
          (wClockFinished.add 6).read 9 = wClockFinished.read 9 + 6)) :=
  ⟨by decide, claim10_add_finished wClockFinished 6 9 (by decide)⟩

/-- Claim C4: a Running CountDown clock reading zero is normalised by
read_and_update() to Stopped with already_elapsed zero; a Running
CountDown read is clamped at zero once the run segment exceeds the
banked time (never negative); and read_and_update() returns exactly the
read value (read itself is embedded as a pure projection, mirroring the
non-mutating Rust borrow). -/
theorem claim4_countdown_read (c : Clock) (now s : Nat) :
    ((c.state.isRunning = true → c.mode = ClockMode.CountDown →
        c.read now = 0 →
        (c.read_and_update now).1.already_elapsed = 0
        ∧ (c.read_and_update now).1.state = ClockState.Stopped))
    ∧ (c.state = ClockState.Running s → c.mode = ClockMode.CountDown →
        c.already_elapsed ≤ now - s → c.read now = 0)
    ∧ (c.read_and_update now).2 = c.read now := by
  refine ⟨?_, ?_, ?_⟩
  · intro hr hm hz
    simp [Clock.read_and_update, hr, hm, hz]
  · intro hs hm hle
    simp [Clock.read, hs, hm]
    omega
  · by_cases h : c.state.isRunning = true ∧ c.mode = ClockMode.CountDown
        ∧ c.read now = 0
    · simp [Clock.read_and_update, h]
    · simp [Clock.read_and_update, h]

/-- Witness for C4 at a concrete exhausted running CountDown clock. -/
theorem claim4_witness :
    (wClockZeroed.state.isRunning = true
      ∧ wClockZeroed.mode = ClockMode.CountDown
      ∧ wClockZeroed.read 9 = 0)
    ∧ ((wClockZeroed.read_and_update 9).1.already_elapsed = 0
      ∧ (wClockZeroed.read_and_update 9).1.state = ClockState.Stopped)
    ∧ wClockZeroed.read 9 = 0
    ∧ (wClockZeroed.read_and_update 9).2 = wClockZeroed.read 9 :=
  ⟨by decide,
   (claim4_countdown_read wClockZeroed 9 0).1 (by decide) (by decide)
     (by decide),
   (claim4_countdown_read wClockZeroed 9 0).2.1 (by decide) (by decide)
     (by decide),
   (claim4_countdown_read wClockZeroed 9 0).2.2⟩

end RustyChessClock
